import Mathlib

/-!
Verification of the goparsify combinator engine (src/combinator.go) against its
specification. The combinators themselves are translated from src/combinator.go.
The cursor/state, result-node and error data model, the primitive leaf matchers
(Exact, Chars), the commit operator Cut and the primitive adapter are not part
of src/ (only their callers are); they are modelled from the spec (sections 3,
4.1, 4.6 and 6 of spec.md) and each such definition is marked below.

Go code mutates a shared *State and a *Result node in place; the embedding
threads them functionally: a parser maps (state, node) to (state, node).
Byte offsets of the Go implementation coincide with character offsets here
because all inputs considered are ASCII; input text is a list of characters.
-/

namespace Goparsify

/-- Modelled from the spec: the error value of section 3, a position plus a
description of what was expected; the sentinel empty value (empty description)
means no failure. The Error type of the repository is outside src/. -/
structure Err where
  pos : Nat
  expected : String
deriving DecidableEq

/-- Modelled from the spec: the sentinel empty error value meaning no failure. -/
def Err.sentinel : Err := ⟨0, ""⟩

/-- Result node (spec section 3): matched text span and ordered children.
The semantic payload field is untyped in Go and unused by the claims below,
so it is not modelled. -/
inductive Result where
  | mk (tok : List Char) (ch : List Result)

/-- Token of a result node. -/
def Result.Token : Result → List Char
  | .mk t _ => t

/-- Children of a result node. -/
def Result.Child : Result → List Result
  | .mk _ c => c

/-- The zero value of a Go Result. -/
def Result.empty : Result := .mk [] []

/-- Replace the token of a node. -/
def Result.withToken : Result → List Char → Result
  | .mk _ c, t => .mk t c

/-- Replace the children of a node. -/
def Result.withChild : Result → List Result → Result
  | .mk t _, c => .mk t c

/-- Modelled from the spec: the cursor of section 3 with input text, current
offset, active error, cut barrier and whitespace-skip policy. The State type of
the repository is outside src/. The whitespace policy is either the automatic
ASCII skip or the no-op installed by NoAutoWS, so it is a boolean flag. -/
structure State where
  Input : List Char
  Pos : Nat
  Error : Err
  Cut : Nat
  WS : Bool
deriving DecidableEq

/-- Modelled from the spec: a failure is signalled by a non-empty expected
description in the error value. -/
def State.Errored (s : State) : Bool := s.Error.expected != ""

/-- Modelled from the spec: silent recovery resets the error to the sentinel
empty value. -/
def State.Recover (s : State) : State := { s with Error := Err.sentinel }

/-- Modelled from the spec: record a failure at the current offset with the
given expected description (primitive contract, spec section 4.1). -/
def State.ErrorHere (s : State) (expected : String) : State :=
  { s with Error := ⟨s.Pos, expected⟩ }

/-- ASCII whitespace characters. -/
def isWSChar (c : Char) : Bool := c == ' ' || c == '\t' || c == '\n' || c == '\r'

/-- Length of the whitespace run at the head of a character list. -/
def wsLen : List Char → Nat
  | [] => 0
  | c :: rest => if isWSChar c then wsLen rest + 1 else 0

/-- Modelled from the spec: apply the active whitespace-skip policy, advancing
the offset past ASCII whitespace when automatic skipping is enabled. -/
def applyWS (s : State) : State :=
  if s.WS then { s with Pos := s.Pos + wsLen (s.Input.drop s.Pos) } else s

/-- A parser, as in the Go signature func(ps *State, node *Result), with the
in-place mutation threaded functionally. -/
abbrev Parser := State → Result → State × Result

/-- NewParser attaches a description used only by the diagnostic trace sink,
which the spec states has no effect on parse results; it is the identity on
the wrapped parser. -/
def NewParser (_description : String) (f : Parser) : Parser := f

/-- Modelled from the spec: the exact-string leaf matcher (primitive contract,
spec section 4.1; bare string literals are treated as exact matches by the
primitive adapter). After the whitespace skip it either consumes the literal,
writing it as the token of the node, or fails at the attempted offset with the
literal as the expected description. -/
def Exact (m : String) : Parser := fun ps node =>
  let ps := applyWS ps
  if (ps.Input.drop ps.Pos).take m.toList.length = m.toList then
    ({ ps with Pos := ps.Pos + m.toList.length, Error := Err.sentinel },
      node.withToken m.toList)
  else
    (ps.ErrorHere m, node)

/-- Modelled from the spec: the commit operator Cut (spec section 4.6) consumes
nothing and raises the cut barrier to at least the current offset. -/
def Cut : Parser := fun ps node => ({ ps with Cut := max ps.Cut ps.Pos }, node)

/-- Character-class membership for a class description such as "a-g": a dash
between two characters denotes an inclusive range, other characters stand for
themselves. -/
def inClass : List Char → Char → Bool
  | lo :: '-' :: hi :: rest, c => (lo ≤ c && c ≤ hi) || inClass rest c
  | x :: rest, c => c == x || inClass rest c
  | [], _ => false

/-- Maximal run of class members at the head of a character list. -/
def classRun (cls : List Char) : List Char → List Char
  | c :: rest => if inClass cls c then c :: classRun cls rest else []
  | [] => []

/-- Modelled from the spec: the character-class leaf matcher (obeying the
primitive contract of spec section 4.1, used by the repeated-match test
properties of spec section 8). It consumes a maximal non-empty run of class
members after the whitespace skip, or fails at the attempted offset. -/
def Chars (cls : String) : Parser := fun ps node =>
  let ps := applyWS ps
  let run := classRun cls.toList (ps.Input.drop ps.Pos)
  if run.length = 0 then
    (ps.ErrorHere cls, node)
  else
    ({ ps with Pos := ps.Pos + run.length, Error := Err.sentinel },
      node.withToken run)

/-- Modelled from the spec: the primitive adapter (spec section 6) accepts a
raw literal or an already-built parser wherever a combinator parameter is
declared. -/
inductive Parserish where
  | str (s : String)
  | p (f : Parser)

/-- Modelled from the spec: normalize a literal or parser into a parser; a bare
string is an exact match. -/
def Parsify : Parserish → Parser
  | .str s => Exact s
  | .p f => f

/-- Parsify a whole argument list. -/
def ParsifyAll (ps : List Parserish) : List Parser := ps.map Parsify

/-- The input slice between two offsets, as in Go slicing Input[a:b]. -/
def sliceInput (input : List Char) (a b : Nat) : List Char :=
  (input.drop a).take (b - a)

/-- Modelled from the spec: the state at the start of a parse of the given
input (offset zero, no error, cut barrier at zero, automatic whitespace
skipping active). -/
def NewState (input : String) : State := ⟨input.toList, 0, Err.sentinel, 0, true⟩

/-- Loop of Seq from src/combinator.go: run the sub-parsers in order, each
into a fresh child slot; stop at the first failure, the remaining child slots
staying at the zero value exactly as the preallocated Go slice does. -/
def seqRun : List Parser → State → State × List Result
  | [], ps => (ps, [])
  | p :: rest, ps =>
    let res := p ps Result.empty
    if res.1.Errored = true then
      (res.1, res.2 :: rest.map (fun _ => Result.empty))
    else
      let tail := seqRun rest res.1
      (tail.1, res.2 :: tail.2)

/-- Seq from src/combinator.go: matches all given parsers in order; on failure
restores the offset to the start of the sequence; on success the token is the
input slice from the start offset to the final offset. -/
def Seq (parsers : List Parserish) : Parser :=
  NewParser "Seq()" fun ps node =>
    let parserfied := ParsifyAll parsers
    let startpos := ps.Pos
    let res := seqRun parserfied ps
    let node1 := node.withChild res.2
    if res.1.Errored = true then
      ({ res.1 with Pos := startpos }, node1)
    else
      (res.1, node1.withToken (sliceInput res.1.Input startpos res.1.Pos))

/-- NoAutoWS from src/combinator.go: disables automatic whitespace skipping
underneath, restoring the previous policy afterwards. -/
def NoAutoWS (parser : Parserish) : Parser := fun ps node =>
  let parserfied := Parsify parser
  let res := parserfied ({ ps with WS := false }) node
  ({ res.1 with WS := ps.WS }, res.2)

/-- Loop of AnyWithName from src/combinator.go. The boolean is true when an
alternative succeeded and the loop returned early; breaking out on a committed
failure and falling off the end both yield false. -/
def awnLoop (startpos : Nat) : List Parser → State → Result → State × Result × Bool
  | [], ps, node => (ps, node, false)
  | p :: rest, ps, node =>
    let res := p ps node
    if res.1.Errored = true then
      if res.1.Cut > startpos then (res.1, res.2, false)
      else awnLoop startpos rest res.1.Recover res.2
    else (res.1, res.2, true)

/-- AnyWithName from src/combinator.go: first-match alternation reporting the
given group name on failure. -/
def AnyWithName (name : String) (parsers : List Parserish) : Parser :=
  NewParser "Any()" fun ps node =>
    let parserfied := ParsifyAll parsers
    let ps := applyWS ps
    if ps.Pos ≥ ps.Input.length then (ps.ErrorHere "!EOF", node)
    else
      let startpos := ps.Pos
      if ps.Cut ≤ startpos then
        let r := awnLoop startpos parserfied ps.Recover node
        if r.2.2 = true then (r.1, r.2.1)
        else ({ r.1 with Error := ⟨startpos, name⟩, Pos := startpos }, r.2.1)
      else (ps, node)

/-- Loop of Longest from src/combinator.go, threading the best snapshot taken
so far; returns the best snapshot and the current state and node. -/
def longestLoop (startpos : Nat) :
    List Parser → State → Result → State × Result → (State × Result) × State × Result
  | [], ps, node, best => (best, ps, node)
  | p :: rest, ps, node, best =>
    let res := p ps node
    if res.1.Errored = true then
      if res.1.Cut > startpos then (best, res.1, res.2)
      else longestLoop startpos rest res.1.Recover res.2 best
    else
      let best1 := if res.1.Pos > best.1.Pos then (res.1, res.2) else best
      longestLoop startpos rest ({ res.1 with Pos := startpos }) res.2 best1

/-- Longest from src/combinator.go: greedy alternation keeping the successful
alternative that advanced the cursor furthest past the start offset. -/
def Longest (name : String) (parsers : List Parserish) : Parser :=
  NewParser "Longest()" fun ps node =>
    let parserfied := ParsifyAll parsers
    let ps := applyWS ps
    if ps.Pos ≥ ps.Input.length then (ps.ErrorHere "!EOF", node)
    else
      let startpos := ps.Pos
      if ps.Cut ≤ startpos then
        let ps0 := ps.Recover
        let r := longestLoop startpos parserfied ps0 node (ps0, node)
        if r.1.1.Pos > startpos then r.1
        else ({ r.2.1 with Error := ⟨startpos, name⟩, Pos := startpos }, r.2.2)
      else (ps, node)

/-- Loop of Any from src/combinator.go, threading the furthest error seen; the
boolean is true when an alternative succeeded and the loop returned early. -/
def anyLoop (startpos : Nat) : List Parser → State → Result → Err → State × Result × Err × Bool
  | [], ps, node, le => (ps, node, le, false)
  | p :: rest, ps, node, le =>
    let res := p ps node
    if res.1.Errored = true then
      let le1 := if res.1.Error.pos ≥ le.pos then res.1.Error else le
      if res.1.Cut > startpos then (res.1, res.2, le1, false)
      else anyLoop startpos rest res.1.Recover res.2 le1
    else (res.1, res.2, le, true)

/-- Any from src/combinator.go: first-match alternation reporting the furthest
sub-error when all alternatives fail. -/
def Any (parsers : List Parserish) : Parser :=
  NewParser "Any()" fun ps node =>
    let parserfied := ParsifyAll parsers
    let ps := applyWS ps
    if ps.Pos ≥ ps.Input.length then (ps.ErrorHere "!EOF", node)
    else
      let startpos := ps.Pos
      let longestError := ps.Error
      if ps.Cut ≤ startpos then
        let r := anyLoop startpos parserfied ps.Recover node longestError
        if r.2.2.2 = true then (r.1, r.2.1)
        else ({ r.1 with Error := r.2.2.1, Pos := startpos }, r.2.1)
      else (ps, node)

/-- Loop of manyImpl from src/combinator.go. The Go loop is unbounded (a
non-advancing operand loops forever, which the spec leaves to the caller to
avoid); the embedding makes the iteration count explicit as fuel, returning
the current state unchanged when the fuel runs out. -/
def manyLoop (min : Nat) (op : Parser) (sep : Option Parser) (startpos : Nat) :
    Nat → State → Result → State × Result
  | 0, ps, node => (ps, node)
  | Nat.succ fuel, ps, node =>
    let res := op ps Result.empty
    let node1 := node.withChild (node.Child ++ [res.2])
    if res.1.Errored = true then
      if (node1.Child.length : Int) - 1 < (min : Int) ∨ res.1.Cut > res.1.Pos then
        ({ res.1 with Pos := startpos }, node1)
      else
        (res.1.Recover, node1.withChild node1.Child.dropLast)
    else
      sep.elim (manyLoop min op sep startpos fuel res.1 node1) fun sp =>
        let res2 := sp res.1 Result.empty
        if res2.1.Errored = true then (res2.1.Recover, node1)
        else manyLoop min op sep startpos fuel res2.1 node1

/-- manyImpl from src/combinator.go: repetition with a minimum count and an
optional separator whose result is discarded (written into a trash node in Go). -/
def manyImpl (fuel min : Nat) (op : Parserish) (sep : List Parserish) : Parser :=
  fun ps node =>
    let opParser := Parsify op
    let sepParser := sep.head?.map Parsify
    manyLoop min opParser sepParser ps.Pos fuel ps (node.withChild [])

/-- Some from src/combinator.go: one or more matches. -/
def Some (fuel : Nat) (parser : Parserish) (separator : List Parserish) : Parser :=
  NewParser "Some()" (manyImpl fuel 1 parser separator)

/-- Many from src/combinator.go: zero or more matches. -/
def Many (fuel : Nat) (parser : Parserish) (separator : List Parserish) : Parser :=
  NewParser "Many()" (manyImpl fuel 0 parser separator)

/-- Maybe from src/combinator.go: zero or one of the parser; recovers a failure
only when the cut barrier does not sit past the entry offset. -/
def Maybe (parser : Parserish) : Parser :=
  NewParser "Maybe()" fun ps node =>
    let parserfied := Parsify parser
    let startpos := ps.Pos
    let res := parserfied ps node
    if res.1.Errored = true ∧ res.1.Cut ≤ startpos then (res.1.Recover, res.2)
    else res

/-- Map from src/combinator.go: applies the callback to the node on success
only. -/
def Map (parser : Parserish) (f : Result → Result) : Parser := fun ps node =>
  let p := Parsify parser
  let res := p ps node
  if res.1.Errored = true then res else (res.1, f res.2)

mutual

/-- flatten from src/combinator.go: when the node has children, its token
becomes the concatenation of the flattened tokens of the children. The Go loop
ranges over value copies of the children, so the child list itself is left
unchanged. -/
def flatten : Result → Result
  | .mk tok [] => .mk tok []
  | .mk _ (c :: cs) => .mk (flattenTokens (c :: cs)) (c :: cs)

/-- Token accumulation of the flatten loop. -/
def flattenTokens : List Result → List Char
  | [] => []
  | c :: cs => (flatten c).Token ++ flattenTokens cs

end

/-- Merge from src/combinator.go: Map with the flatten transform. -/
def Merge (parser : Parserish) : Parser := Map parser flatten

end Goparsify

namespace Goparsify

/-! ### Basic helper lemmas about the state model -/

theorem recover_not_errored (s : State) : s.Recover.Errored = false := rfl

theorem recover_pos (s : State) : s.Recover.Pos = s.Pos := rfl

theorem applyWS_of_noauto (s : State) (h : s.WS = false) : applyWS s = s := by
  simp [applyWS, h]

theorem applyWS_input (s : State) : (applyWS s).Input = s.Input := by
  unfold applyWS; split <;> rfl

/-! ### Failure restores the cursor: helper lemmas -/

theorem seq_fail_pos (parsers : List Parserish) (s : State) (n : Result)
    (h : ((Seq parsers) s n).1.Errored = true) : ((Seq parsers) s n).1.Pos = s.Pos := by
  simp only [Seq, NewParser] at h ⊢
  by_cases hc : (seqRun (ParsifyAll parsers) s).1.Errored = true
  · simp [hc]
  · simp [hc] at h

theorem manyLoop_fail_pos (min : Nat) (op : Parser) (sep : Option Parser) (startpos : Nat) :
    ∀ (fuel : Nat) (s : State) (n : Result), s.Errored = false →
      (manyLoop min op sep startpos fuel s n).1.Errored = true →
      (manyLoop min op sep startpos fuel s n).1.Pos = startpos := by
  intro fuel
  induction fuel with
  | zero =>
    intro s n hs h
    simp only [manyLoop] at h
    simp [hs] at h
  | succ fuel ih =>
    intro s n hs h
    simp only [manyLoop] at h ⊢
    by_cases h1 : (op s Result.empty).1.Errored = true
    · rw [if_pos h1] at h ⊢
      by_cases h2 : ((n.withChild (n.Child ++ [(op s Result.empty).2])).Child.length : Int) - 1
          < (min : Int) ∨ (op s Result.empty).1.Cut > (op s Result.empty).1.Pos
      · rw [if_pos h2]
      · rw [if_neg h2] at h
        simp [recover_not_errored] at h
    · rw [if_neg h1] at h ⊢
      cases sep with
      | none =>
        simp only [Option.elim] at h ⊢
        exact ih _ _ (by simpa using h1) h
      | some sp =>
        simp only [Option.elim] at h ⊢
        by_cases h3 : (sp (op s Result.empty).1 Result.empty).1.Errored = true
        · rw [if_pos h3] at h
          simp [recover_not_errored] at h
        · rw [if_neg h3] at h ⊢
          exact ih _ _ (by simpa using h3) h

theorem manyImpl_fail_pos (fuel min : Nat) (op : Parserish) (sep : List Parserish)
    (s : State) (n : Result) (hs : s.Errored = false)
    (h : ((manyImpl fuel min op sep) s n).1.Errored = true) :
    ((manyImpl fuel min op sep) s n).1.Pos = s.Pos := by
  simp only [manyImpl] at h ⊢
  exact manyLoop_fail_pos _ _ _ _ _ _ _ hs h

theorem awnLoop_true_not_errored (startpos : Nat) :
    ∀ (l : List Parser) (s : State) (n : Result),
      (awnLoop startpos l s n).2.2 = true → (awnLoop startpos l s n).1.Errored = false := by
  intro l
  induction l with
  | nil => intro s n h; simp [awnLoop] at h
  | cons p rest ih =>
    intro s n h
    simp only [awnLoop] at h ⊢
    by_cases h1 : (p s n).1.Errored = true
    · rw [if_pos h1] at h ⊢
      by_cases h2 : (p s n).1.Cut > startpos
      · rw [if_pos h2] at h; simp at h
      · rw [if_neg h2] at h ⊢; exact ih _ _ h
    · rw [if_neg h1] at h ⊢
      simpa using h1

theorem anyLoop_true_not_errored (startpos : Nat) :
    ∀ (l : List Parser) (s : State) (n : Result) (le : Err),
      (anyLoop startpos l s n le).2.2.2 = true →
      (anyLoop startpos l s n le).1.Errored = false := by
  intro l
  induction l with
  | nil => intro s n le h; simp [anyLoop] at h
  | cons p rest ih =>
    intro s n le h
    simp only [anyLoop] at h ⊢
    by_cases h1 : (p s n).1.Errored = true
    · rw [if_pos h1] at h ⊢
      by_cases h2 : (p s n).1.Cut > startpos
      · rw [if_pos h2] at h; simp at h
      · rw [if_neg h2] at h ⊢; exact ih _ _ _ h
    · rw [if_neg h1] at h ⊢
      simpa using h1

theorem longestLoop_best_not_errored (startpos : Nat) :
    ∀ (l : List Parser) (s : State) (n : Result) (best : State × Result),
      best.1.Errored = false →
      ((longestLoop startpos l s n best).1).1.Errored = false := by
  intro l
  induction l with
  | nil => intro s n best hb; simpa [longestLoop] using hb
  | cons p rest ih =>
    intro s n best hb
    simp only [longestLoop]
    by_cases h1 : (p s n).1.Errored = true
    · rw [if_pos h1]
      by_cases h2 : (p s n).1.Cut > startpos
      · rw [if_pos h2]; exact hb
      · rw [if_neg h2]; exact ih _ _ _ hb
    · rw [if_neg h1]
      by_cases h3 : (p s n).1.Pos > best.1.Pos
      · rw [if_pos h3]; exact ih _ _ _ (by simpa using h1)
      · rw [if_neg h3]; exact ih _ _ _ hb

theorem any_fail_pos (parsers : List Parserish) (s : State) (n : Result)
    (h : ((Any parsers) s n).1.Errored = true) :
    ((Any parsers) s n).1.Pos = (applyWS s).Pos := by
  simp only [Any, NewParser] at h ⊢
  by_cases h1 : (applyWS s).Pos ≥ (applyWS s).Input.length
  · rw [if_pos h1] at h ⊢; rfl
  · rw [if_neg h1] at h ⊢
    by_cases h2 : (applyWS s).Cut ≤ (applyWS s).Pos
    · rw [if_pos h2] at h ⊢
      by_cases h3 : (anyLoop (applyWS s).Pos (ParsifyAll parsers) (applyWS s).Recover n
          (applyWS s).Error).2.2.2 = true
      · rw [if_pos h3] at h
        rw [anyLoop_true_not_errored _ _ _ _ _ h3] at h
        cases h
      · rw [if_neg h3]
    · rw [if_neg h2] at h ⊢

theorem awn_fail_pos (name : String) (parsers : List Parserish) (s : State) (n : Result)
    (h : ((AnyWithName name parsers) s n).1.Errored = true) :
    ((AnyWithName name parsers) s n).1.Pos = (applyWS s).Pos := by
  simp only [AnyWithName, NewParser] at h ⊢
  by_cases h1 : (applyWS s).Pos ≥ (applyWS s).Input.length
  · rw [if_pos h1] at h ⊢; rfl
  · rw [if_neg h1] at h ⊢
    by_cases h2 : (applyWS s).Cut ≤ (applyWS s).Pos
    · rw [if_pos h2] at h ⊢
      by_cases h3 : (awnLoop (applyWS s).Pos (ParsifyAll parsers) (applyWS s).Recover n).2.2 = true
      · rw [if_pos h3] at h
        rw [awnLoop_true_not_errored _ _ _ _ h3] at h
        cases h
      · rw [if_neg h3]
    · rw [if_neg h2] at h ⊢

theorem longest_fail_pos (name : String) (parsers : List Parserish) (s : State) (n : Result)
    (h : ((Longest name parsers) s n).1.Errored = true) :
    ((Longest name parsers) s n).1.Pos = (applyWS s).Pos := by
  simp only [Longest, NewParser] at h ⊢
  by_cases h1 : (applyWS s).Pos ≥ (applyWS s).Input.length
  · rw [if_pos h1] at h ⊢; rfl
  · rw [if_neg h1] at h ⊢
    by_cases h2 : (applyWS s).Cut ≤ (applyWS s).Pos
    · rw [if_pos h2] at h ⊢
      by_cases h3 : ((longestLoop (applyWS s).Pos (ParsifyAll parsers) (applyWS s).Recover n
          ((applyWS s).Recover, n)).1).1.Pos > (applyWS s).Pos
      · rw [if_pos h3] at h
        rw [longestLoop_best_not_errored _ _ _ _ _ (recover_not_errored _)] at h
        cases h
      · rw [if_neg h3]
    · rw [if_neg h2] at h ⊢

theorem maybe_pos (p : Parserish) (s : State) (n : Result) :
    (Maybe p s n).1.Pos = ((Parsify p) s n).1.Pos := by
  simp only [Maybe, NewParser]
  by_cases hc : ((Parsify p) s n).1.Errored = true ∧ ((Parsify p) s n).1.Cut ≤ s.Pos
  · rw [if_pos hc]; rfl
  · rw [if_neg hc]

end Goparsify

namespace Goparsify

/-! ### Claim C1 -/

/-- C1 counterexample: Seq("var", Cut(), "hello") on "var world" fails with the
cut barrier at 3, past its entry offset 0, and the failure point is offset 4;
the claim predicts the cursor is left at the failure point, but the code
restores it to the entry offset 0 (as the TestCut tests of the repository
require). -/
theorem claim1_counterexample :
    ((Seq [.str "var", .p Cut, .str "hello"]) (NewState "var world")
        Result.empty).1.Errored = true ∧
    ((Seq [.str "var", .p Cut, .str "hello"]) (NewState "var world")
        Result.empty).1.Cut = 3 ∧
    ((Seq [.str "var", .p Cut, .str "hello"]) (NewState "var world")
        Result.empty).1.Error.pos = 4 ∧
    ((Seq [.str "var", .p Cut, .str "hello"]) (NewState "var world")
        Result.empty).1.Pos = 0 ∧
    ¬ ((Seq [.str "var", .p Cut, .str "hello"]) (NewState "var world")
        Result.empty).1.Pos = 4 := by
  decide

/-- C1 (amended): whenever Seq, Many, Some, AnyWithName, Any or Longest fails,
the cursor is restored to the offset the combinator had at entry (for the
alternation family, the offset reached after the entry whitespace skip), even
when the cut barrier has been raised to or past that offset; Maybe leaves the
cursor wherever its sub-parser left it. -/
theorem claim1_fail_restores_entry_pos :
    (∀ parsers s n, ((Seq parsers) s n).1.Errored = true →
        ((Seq parsers) s n).1.Pos = s.Pos) ∧
    (∀ fuel op sep s n, s.Errored = false → ((Many fuel op sep) s n).1.Errored = true →
        ((Many fuel op sep) s n).1.Pos = s.Pos) ∧
    (∀ fuel op sep s n, s.Errored = false → ((Some fuel op sep) s n).1.Errored = true →
        ((Some fuel op sep) s n).1.Pos = s.Pos) ∧
    (∀ name parsers s n, ((AnyWithName name parsers) s n).1.Errored = true →
        ((AnyWithName name parsers) s n).1.Pos = (applyWS s).Pos) ∧
    (∀ parsers s n, ((Any parsers) s n).1.Errored = true →
        ((Any parsers) s n).1.Pos = (applyWS s).Pos) ∧
    (∀ name parsers s n, ((Longest name parsers) s n).1.Errored = true →
        ((Longest name parsers) s n).1.Pos = (applyWS s).Pos) ∧
    (∀ p s n, (Maybe p s n).1.Pos = ((Parsify p) s n).1.Pos) := by
  refine ⟨seq_fail_pos, ?_, ?_, awn_fail_pos, any_fail_pos, longest_fail_pos, maybe_pos⟩
  · intro fuel op sep s n hs h
    exact manyImpl_fail_pos fuel 0 op sep s n hs h
  · intro fuel op sep s n hs h
    exact manyImpl_fail_pos fuel 1 op sep s n hs h

/-- C1 witness: concrete instances of the amended statement. -/
theorem claim1_witness :
    ((Seq [.str "var", .p Cut, .str "hello"]) (NewState "var world")
        Result.empty).1.Pos = (NewState "var world").Pos ∧
    ((Many 5 (.p (Seq [.str "a", .p Cut, .str "b"])) []) (NewState "a c")
        Result.empty).1.Pos = (NewState "a c").Pos ∧
    ((Some 5 (.str "x") []) (NewState "y") Result.empty).1.Pos = (NewState "y").Pos ∧
    ((Any [.p (Seq [.str "var", .p Cut, .str "hello"])]) (NewState "var world")
        Result.empty).1.Pos = (applyWS (NewState "var world")).Pos ∧
    (Maybe (.str "x") (NewState " y") Result.empty).1.Pos =
      ((Parsify (.str "x")) (NewState " y") Result.empty).1.Pos :=
  ⟨claim1_fail_restores_entry_pos.1 _ _ _ (by decide),
   claim1_fail_restores_entry_pos.2.1 5 (.p (Seq [.str "a", .p Cut, .str "b"])) [] _ _
     (by decide) (by decide),
   claim1_fail_restores_entry_pos.2.2.1 5 (.str "x") [] _ _ (by decide) (by decide),
   claim1_fail_restores_entry_pos.2.2.2.2.1 _ _ _ (by decide),
   claim1_fail_restores_entry_pos.2.2.2.2.2.2 _ _ _⟩

/-! ### Claim C2 -/

/-- C2 counterexample: in AnyWithName("greeting", Seq("var", Cut(), "hello"),
"var world") on "var world", the first alternative fails with error
offset 4 expected hello after the cut barrier moved past the alternation
start 0. The claim predicts that exact sub-error is left in the state, but the
code reports the group-name error at the start offset instead (the second
alternative is indeed never tried, as its success would otherwise show). -/
theorem claim2_counterexample :
    ((AnyWithName "greeting"
        [.p (Seq [.str "var", .p Cut, .str "hello"]), .str "var world"])
        (NewState "var world") Result.empty).1.Error = ⟨0, "greeting"⟩ ∧
    ¬ ((AnyWithName "greeting"
        [.p (Seq [.str "var", .p Cut, .str "hello"]), .str "var world"])
        (NewState "var world") Result.empty).1.Error = ⟨4, "hello"⟩ ∧
    ((Seq [.str "var", .p Cut, .str "hello"])
        ((NewState "var world").Recover) Result.empty).1.Error = ⟨4, "hello"⟩ := by
  decide

/-- C2 (amended): when an alternative of AnyWithName fails after the cut
barrier has moved past the start offset of the alternation, no further
alternative is tried (the conclusion does not depend on the remaining list),
but the error left in the state is the group-name error at the start offset,
not the error of the failing alternative, and the cursor is restored to the
start offset. -/
theorem claim2_commit_group_error (name : String) (first : Parser)
    (rest : List Parserish) (s : State) (n : Result)
    (hws : s.WS = false) (hpos : s.Pos < s.Input.length) (hcut : s.Cut ≤ s.Pos)
    (herr : (first s.Recover n).1.Errored = true)
    (hcommit : s.Pos < (first s.Recover n).1.Cut) :
    (AnyWithName name (.p first :: rest)) s n =
      ({ (first s.Recover n).1 with Error := ⟨s.Pos, name⟩, Pos := s.Pos },
        (first s.Recover n).2) := by
  simp only [AnyWithName, NewParser, ParsifyAll, List.map, Parsify]
  rw [applyWS_of_noauto s hws]
  rw [if_neg (by omega : ¬ s.Pos ≥ s.Input.length)]
  rw [if_pos hcut]
  simp only [awnLoop]
  rw [if_pos herr]
  rw [if_pos (by omega : (first s.Recover n).1.Cut > s.Pos)]
  simp

/-- C2 witness: the amended statement at the counterexample input. -/
theorem claim2_witness :
    (AnyWithName "greeting"
        [.p (Seq [.str "var", .p Cut, .str "hello"]), .str "var world"])
        (⟨"var world".toList, 0, Err.sentinel, 0, false⟩ : State) Result.empty =
      ({ ((Seq [.str "var", .p Cut, .str "hello"])
            (State.Recover ⟨"var world".toList, 0, Err.sentinel, 0, false⟩)
            Result.empty).1 with
          Error := ⟨0, "greeting"⟩, Pos := 0 },
        ((Seq [.str "var", .p Cut, .str "hello"])
            (State.Recover ⟨"var world".toList, 0, Err.sentinel, 0, false⟩)
            Result.empty).2) :=
  claim2_commit_group_error "greeting" _ _ _ _ rfl (by decide) (by decide)
    (by decide) (by decide)

/-! ### Claim C4 -/

/-- C4: when the sub-parser of Maybe fails without touching the node (the
primitive contract) and the cut barrier is not past the entry offset, Maybe
recovers, returning the untouched (absent) node with no error in the state;
when the cut barrier sits past the entry offset, Maybe propagates the failure
unchanged. -/
theorem claim4_maybe_recovers_unless_cut (p : Parserish) (s : State) (n : Result)
    (herr : ((Parsify p) s n).1.Errored = true)
    (hnode : ((Parsify p) s n).2 = n) :
    (((Parsify p) s n).1.Cut ≤ s.Pos →
      (Maybe p) s n = (((Parsify p) s n).1.Recover, n) ∧
      (((Parsify p) s n).1.Recover).Errored = false) ∧
    (s.Pos < ((Parsify p) s n).1.Cut →
      (Maybe p) s n = (Parsify p) s n) := by
  constructor
  · intro hcut
    refine ⟨?_, recover_not_errored _⟩
    simp only [Maybe, NewParser]
    rw [if_pos ⟨herr, hcut⟩, hnode]
  · intro hcut
    simp only [Maybe, NewParser]
    rw [if_neg fun hc => absurd hc.2 (not_le.mpr hcut)]

/-- C4 witness: Maybe("world") on "hello world" (the TestMaybe case). -/
theorem claim4_witness :
    (((Parsify (.str "world")) (NewState "hello world") Result.empty).1.Cut ≤
        (NewState "hello world").Pos →
      (Maybe (.str "world")) (NewState "hello world") Result.empty =
        (((Parsify (.str "world")) (NewState "hello world") Result.empty).1.Recover,
          Result.empty) ∧
      (((Parsify (.str "world")) (NewState "hello world")
          Result.empty).1.Recover).Errored = false) ∧
    ((NewState "hello world").Pos <
        ((Parsify (.str "world")) (NewState "hello world") Result.empty).1.Cut →
      (Maybe (.str "world")) (NewState "hello world") Result.empty =
        (Parsify (.str "world")) (NewState "hello world") Result.empty) :=
  claim4_maybe_recovers_unless_cut _ _ _ (by decide) rfl

/-! ### Claim C10 -/

/-- C10: a failing alternation (Any, AnyWithName, Longest) leaves the cursor at
the offset reached after the entry whitespace skip, not at the raw entry
offset: whitespace consumed by the entry skip stays consumed. The closing
conjuncts show a concrete run in which the two offsets differ. -/
theorem claim10_fail_pos_after_ws_skip :
    (∀ parsers s n, ((Any parsers) s n).1.Errored = true →
        ((Any parsers) s n).1.Pos = (applyWS s).Pos) ∧
    (∀ name parsers s n, ((AnyWithName name parsers) s n).1.Errored = true →
        ((AnyWithName name parsers) s n).1.Pos = (applyWS s).Pos) ∧
    (∀ name parsers s n, ((Longest name parsers) s n).1.Errored = true →
        ((Longest name parsers) s n).1.Pos = (applyWS s).Pos) ∧
    ((Any [.str "x"]) (NewState " y") Result.empty).1.Errored = true ∧
    ((Any [.str "x"]) (NewState " y") Result.empty).1.Pos = 1 ∧
    (NewState " y").Pos = 0 := by
  refine ⟨any_fail_pos, awn_fail_pos, longest_fail_pos, by decide, by decide, by decide⟩

/-- C10 witness: the general conjuncts applied to the concrete run with a
leading blank. -/
theorem claim10_witness :
    ((Any [.str "x"]) (NewState " y") Result.empty).1.Pos =
      (applyWS (NewState " y")).Pos ∧
    ((AnyWithName "nm" [.str "x"]) (NewState " y") Result.empty).1.Pos =
      (applyWS (NewState " y")).Pos ∧
    ((Longest "nm" [.str "x"]) (NewState " y") Result.empty).1.Pos =
      (applyWS (NewState " y")).Pos :=
  ⟨claim10_fail_pos_after_ws_skip.1 _ _ _ (by decide),
   claim10_fail_pos_after_ws_skip.2.1 _ _ _ _ (by decide),
   claim10_fail_pos_after_ws_skip.2.2.1 _ _ _ _ (by decide)⟩

end Goparsify

namespace Goparsify

/-! ### Result projection lemmas -/

@[simp] theorem withToken_Token (r : Result) (t : List Char) :
    (r.withToken t).Token = t := by cases r; rfl

@[simp] theorem withToken_Child (r : Result) (t : List Char) :
    (r.withToken t).Child = r.Child := by cases r; rfl

@[simp] theorem withChild_Child (r : Result) (c : List Result) :
    (r.withChild c).Child = c := by cases r; rfl

@[simp] theorem withChild_Token (r : Result) (c : List Result) :
    (r.withChild c).Token = r.Token := by cases r; rfl

@[simp] theorem withChild_withChild (r : Result) (c d : List Result) :
    (r.withChild c).withChild d = r.withChild d := by cases r; rfl

@[simp] theorem errored_set_pos (s : State) (p : Nat) :
    ({ s with Pos := p } : State).Errored = s.Errored := rfl

/-! ### Claim C6 -/

theorem seqRun_input : ∀ (l : List Parser),
    (∀ p ∈ l, ∀ s r, (p s r).1.Input = s.Input) →
    ∀ s, (seqRun l s).1.Input = s.Input := by
  intro l
  induction l with
  | nil => intro _ s; rfl
  | cons p rest ih =>
    intro hpres s
    simp only [seqRun]
    by_cases h1 : (p s Result.empty).1.Errored = true
    · rw [if_pos h1]
      exact hpres p (by simp) s Result.empty
    · rw [if_neg h1]
      exact (ih (fun q hq s' r' => hpres q (by simp [hq]) s' r')
        ((p s Result.empty).1)).trans (hpres p (by simp) s Result.empty)

theorem exact_input (m : String) (s : State) (r : Result) :
    ((Exact m) s r).1.Input = s.Input := by
  simp only [Exact, State.ErrorHere]
  split <;> exact applyWS_input s

/-- C6: whenever Seq succeeds over sub-parsers that do not alter the input
text (every real parser), the token of the node is the exact input slice from
the start offset of the sequence to the final cursor offset. -/
theorem claim6_seq_token_is_input_slice (parsers : List Parserish) (s : State)
    (n : Result)
    (hpres : ∀ p ∈ parsers, ∀ s' r', ((Parsify p) s' r').1.Input = s'.Input)
    (hok : ((Seq parsers) s n).1.Errored = false) :
    ((Seq parsers) s n).2.Token =
      sliceInput s.Input s.Pos ((Seq parsers) s n).1.Pos := by
  simp only [Seq, NewParser] at hok ⊢
  by_cases hc : (seqRun (ParsifyAll parsers) s).1.Errored = true
  · rw [if_pos hc] at hok
    rw [errored_set_pos] at hok
    rw [hc] at hok
    cases hok
  · rw [if_neg hc] at hok ⊢
    rw [withToken_Token]
    rw [seqRun_input (ParsifyAll parsers) ?pres s]
    case pres =>
      intro q hq s' r'
      obtain ⟨p, hp, rfl⟩ := List.mem_map.mp hq
      exact hpres p hp s' r'

/-- C6 witness: Seq("hello", "world") over "hello world" yields the verbatim
span with the interior blank, which differs from the concatenation of the
children tokens. -/
theorem claim6_witness :
    ((Seq [.str "hello", .str "world"]) (NewState "hello world")
        Result.empty).2.Token = "hello world".toList ∧
    (((Seq [.str "hello", .str "world"]) (NewState "hello world")
        Result.empty).2.Child.map Result.Token).flatten = "helloworld".toList := by
  constructor
  · have h := claim6_seq_token_is_input_slice [.str "hello", .str "world"]
      (NewState "hello world") Result.empty ?pres (by decide)
    case pres =>
      intro p hp s' r'
      have : p = .str "hello" ∨ p = .str "world" := by simpa using hp
      rcases this with rfl | rfl
      · exact exact_input "hello" s' r'
      · exact exact_input "world" s' r'
    rw [h]
    decide
  · decide

end Goparsify

namespace Goparsify

/-! ### Claim C7 -/

/-- C7 counterexample: the operand Seq("a", Cut(), "b") matches nothing on
input "a c" (it fails, first conjunct), yet Many does not succeed with zero
matches: the committed failure makes Many fail as a whole (second conjunct),
contradicting the claim read over every operand parser. -/
theorem claim7_counterexample :
    ((Seq [.str "a", .p Cut, .str "b"]) (NewState "a c")
        Result.empty).1.Errored = true ∧
    ((Many 5 (.p (Seq [.str "a", .p Cut, .str "b"])) []) (NewState "a c")
        Result.empty).1.Errored = true := by
  decide

/-- C7 (amended): when the operand fails on the first attempt, Many (minimum
zero) succeeds with zero child matches and no error provided the cut barrier
does not block at the failure position, while Some (minimum one) fails under
the identical condition, restoring the cursor to the entry offset, with or
without a committed failure. -/
theorem claim7_many_zero_some_fails (fuel : Nat) (op : Parserish)
    (sep : List Parserish) (s : State) (n : Result)
    (herr : ((Parsify op) s Result.empty).1.Errored = true) :
    (((Parsify op) s Result.empty).1.Cut ≤ ((Parsify op) s Result.empty).1.Pos →
      (Many (fuel + 1) op sep) s n =
        (((Parsify op) s Result.empty).1.Recover, n.withChild []) ∧
      (((Parsify op) s Result.empty).1.Recover).Errored = false) ∧
    ((Some (fuel + 1) op sep) s n =
        ({ ((Parsify op) s Result.empty).1 with Pos := s.Pos },
          n.withChild [((Parsify op) s Result.empty).2]) ∧
      ({ ((Parsify op) s Result.empty).1 with Pos := s.Pos } : State).Errored
        = true) := by
  constructor
  · intro hcut
    refine ⟨?_, recover_not_errored _⟩
    simp only [Many, NewParser, manyImpl, manyLoop]
    rw [if_pos herr]
    rw [if_neg ?cond]
    case cond =>
      simp only [withChild_withChild, withChild_Child, List.nil_append,
        List.length_cons, List.length_nil]
      push_neg
      refine ⟨by norm_num, hcut⟩
    simp [List.dropLast]
  · constructor
    · simp only [Some, NewParser, manyImpl, manyLoop]
      rw [if_pos herr]
      rw [if_pos ?cond]
      case cond =>
        left
        simp only [withChild_withChild, withChild_Child, List.nil_append,
          List.length_cons, List.length_nil]
        norm_num
      simp
    · rw [errored_set_pos]
      exact herr

/-- C7 witness: the amended statement for the operand "x" over input "y". -/
theorem claim7_witness :
    (((Parsify (.str "x")) (NewState "y") Result.empty).1.Cut ≤
        ((Parsify (.str "x")) (NewState "y") Result.empty).1.Pos →
      (Many (4 + 1) (.str "x") []) (NewState "y") Result.empty =
        (((Parsify (.str "x")) (NewState "y") Result.empty).1.Recover,
          Result.empty.withChild []) ∧
      (((Parsify (.str "x")) (NewState "y") Result.empty).1.Recover).Errored
        = false) ∧
    ((Some (4 + 1) (.str "x") []) (NewState "y") Result.empty =
        ({ ((Parsify (.str "x")) (NewState "y") Result.empty).1 with
            Pos := (NewState "y").Pos },
          Result.empty.withChild [((Parsify (.str "x")) (NewState "y")
            Result.empty).2]) ∧
      ({ ((Parsify (.str "x")) (NewState "y") Result.empty).1 with
          Pos := (NewState "y").Pos } : State).Errored = true) :=
  claim7_many_zero_some_fails 4 (.str "x") [] (NewState "y") Result.empty
    (by decide)

/-! ### Claim C8 -/

/-- C8: after a successful operand match, the configured separator is
attempted with its result discarded, and a separator failure always ends the
repetition successfully, whatever the minimum count and however the cut
barrier stands (first conjunct, about one arbitrary loop iteration); and the
concrete runs of Some(Chars("a-g"), ",") over "a,b,c,d,e," and over
"a,b,c,d,e1111" produce five matches with the cursor at offsets 10 and 9
(leaving "1111" unconsumed) respectively. -/
theorem claim8_sep_failure_ends_success :
    (∀ (min fuel startpos : Nat) (op sp : Parser) (s : State) (n : Result),
      (op s Result.empty).1.Errored = false →
      (sp (op s Result.empty).1 Result.empty).1.Errored = true →
      manyLoop min op (some sp) startpos (fuel + 1) s n =
        ((sp (op s Result.empty).1 Result.empty).1.Recover,
          n.withChild (n.Child ++ [(op s Result.empty).2])) ∧
      ((sp (op s Result.empty).1 Result.empty).1.Recover).Errored = false) ∧
    ((Some 20 (.p (Chars "a-g")) [.str ","]) (NewState "a,b,c,d,e,")
        Result.empty).1.Errored = false ∧
    ((Some 20 (.p (Chars "a-g")) [.str ","]) (NewState "a,b,c,d,e,")
        Result.empty).1.Pos = 10 ∧
    ((Some 20 (.p (Chars "a-g")) [.str ","]) (NewState "a,b,c,d,e,")
        Result.empty).2.Child.map Result.Token =
      ["a".toList, "b".toList, "c".toList, "d".toList, "e".toList] ∧
    ((Some 20 (.p (Chars "a-g")) [.str ","]) (NewState "a,b,c,d,e1111")
        Result.empty).1.Errored = false ∧
    ((Some 20 (.p (Chars "a-g")) [.str ","]) (NewState "a,b,c,d,e1111")
        Result.empty).1.Pos = 9 ∧
    ((Some 20 (.p (Chars "a-g")) [.str ","]) (NewState "a,b,c,d,e1111")
        Result.empty).2.Child.map Result.Token =
      ["a".toList, "b".toList, "c".toList, "d".toList, "e".toList] := by
  refine ⟨?_, by decide, by decide, by decide, by decide, by decide, by decide⟩
  intro min fuel startpos op sp s n hop hsep
  constructor
  · simp only [manyLoop]
    rw [if_neg (by simp [hop])]
    simp only [Option.elim]
    rw [if_pos hsep]
  · exact recover_not_errored _

/-- C8 witness: one loop iteration with operand "a" and separator "," over
input "ab", where the operand matches and the separator fails. -/
theorem claim8_witness :
    manyLoop 1 (Exact "a") (some (Exact ",")) 0 (3 + 1) (NewState "ab")
        Result.empty =
      (((Exact ",") ((Exact "a") (NewState "ab") Result.empty).1
          Result.empty).1.Recover,
        Result.empty.withChild (Result.empty.Child ++
          [((Exact "a") (NewState "ab") Result.empty).2])) ∧
    (((Exact ",") ((Exact "a") (NewState "ab") Result.empty).1
        Result.empty).1.Recover).Errored = false :=
  claim8_sep_failure_ends_success.1 1 3 0 (Exact "a") (Exact ",")
    (NewState "ab") Result.empty (by decide) (by decide)

end Goparsify

namespace Goparsify

/-! ### Claim C3 -/

/-- Following the words of the spec (section 3 ranking, section 8): among the
sub-errors actually produced, the one with the greatest position wins; on equal
positions the error of the later-listed alternative wins. -/
def specFurthestErr : List Err → Err
  | [] => Err.sentinel
  | [e] => e
  | e :: f :: rest =>
    if e.pos > (specFurthestErr (f :: rest)).pos then e
    else specFurthestErr (f :: rest)

theorem step_cons_spec (a e : Err) (es : List Err) :
    specFurthestErr ((if e.pos ≥ a.pos then e else a) :: es) =
      specFurthestErr (a :: e :: es) := by
  cases es with
  | nil =>
    simp only [specFurthestErr]
    split_ifs <;> first | rfl | (exfalso; omega)
  | cons f rest =>
    simp only [specFurthestErr]
    split_ifs <;> first | rfl | (exfalso; omega)

theorem foldl_rank_spec : ∀ (es : List Err) (a : Err),
    es.foldl (fun acc e => if e.pos ≥ acc.pos then e else acc) a =
      specFurthestErr (a :: es) := by
  intro es
  induction es with
  | nil => intro a; rfl
  | cons e rest ih =>
    intro a
    rw [List.foldl_cons, ih (if e.pos ≥ a.pos then e else a)]
    exact step_cons_spec a e rest

theorem spec_sentinel_cons (es : List Err) (h : es ≠ []) :
    specFurthestErr (Err.sentinel :: es) = specFurthestErr es := by
  cases es with
  | nil => exact absurd rfl h
  | cons f rest =>
    simp only [specFurthestErr]
    rw [if_neg (by simp [Err.sentinel])]

/-- Behavior of the alternation loop of Any over alternatives that each fail
by writing a fixed error into the state, leaving everything else (offset, cut,
input, node) untouched, as the primitive contract prescribes for failures that
consume nothing. -/
theorem anyLoop_uniform (startpos : Nat) (alts : List Parser) (es : List Err)
    (hfa : List.Forall₂ (fun (p : Parser) (e : Err) =>
      ∀ s r, p s r = ({ s with Error := e }, r)) alts es) :
    (∀ e ∈ es, e.expected ≠ "") →
    ∀ (s : State) (n : Result) (le : Err), s.Error = Err.sentinel →
      s.Cut ≤ startpos →
      anyLoop startpos alts s n le =
        (s, n,
          es.foldl (fun acc e => if e.pos ≥ acc.pos then e else acc) le,
          false) := by
  induction hfa with
  | nil =>
    intro _ s n le _ _
    rfl
  | @cons p e alts2 es2 hpe hrest ih =>
    intro hexp s n le hs hcut
    have he : e.expected ≠ "" := hexp e (by simp)
    have hsen : ({ s with Error := Err.sentinel } : State) = s := by rw [← hs]
    simp only [anyLoop]
    rw [hpe s n]
    dsimp only [State.Errored, State.Recover]
    rw [if_pos (bne_iff_ne.mpr he)]
    rw [if_neg (show ¬ s.Cut > startpos by omega)]
    rw [hsen]
    rw [ih (fun x hx => hexp x (by simp [hx])) s n _ hs hcut]
    rw [List.foldl_cons]

/-- C3: when every alternative of Any fails, each producing a fixed sub-error
while consuming nothing (the primitive contract for failures), the error
reported is specFurthestErr of the produced sub-errors: the one with the
greatest position, ties won by the later-listed alternative, and the cursor is
restored to the start offset. -/
theorem claim3_any_furthest_error (alts : List Parser) (es : List Err)
    (s : State) (n : Result)
    (hfa : List.Forall₂ (fun (p : Parser) (e : Err) =>
      ∀ s' r', p s' r' = ({ s' with Error := e }, r')) alts es)
    (hexp : ∀ e ∈ es, e.expected ≠ "") (hne : es ≠ [])
    (hws : s.WS = false) (hpos : s.Pos < s.Input.length)
    (hcut : s.Cut ≤ s.Pos) (hs : s.Error = Err.sentinel) :
    (Any (alts.map Parserish.p)) s n =
      ({ s with Error := specFurthestErr es }, n) := by
  have hsen : ({ s with Error := Err.sentinel } : State) = s := by rw [← hs]
  simp only [Any, NewParser]
  rw [applyWS_of_noauto s hws]
  rw [if_neg (by omega : ¬ s.Pos ≥ s.Input.length)]
  rw [if_pos hcut]
  have hpar : ParsifyAll (alts.map Parserish.p) = alts := by
    rw [ParsifyAll, List.map_map]
    exact List.map_id alts
  rw [hpar]
  show (if (anyLoop s.Pos alts s.Recover n s.Error).2.2.2 = true then _ else _) = _
  rw [show (s.Recover : State) = s from hsen]
  rw [anyLoop_uniform s.Pos alts es hfa hexp s n s.Error hs hcut]
  dsimp only
  rw [if_neg (by simp)]
  rw [hs]
  rw [foldl_rank_spec es Err.sentinel]
  rw [spec_sentinel_cons es hne]

/-- C3 witness: two alternatives failing with equal positions; the error of
the later-listed alternative is reported. -/
theorem claim3_witness :
    (Any [Parserish.p (fun s' r' => ({ s' with Error := ⟨3, "x"⟩ }, r')),
          Parserish.p (fun s' r' => ({ s' with Error := ⟨3, "y"⟩ }, r'))])
        (⟨"ab".toList, 0, Err.sentinel, 0, false⟩ : State) Result.empty =
      ({ (⟨"ab".toList, 0, Err.sentinel, 0, false⟩ : State) with
          Error := (⟨3, "y"⟩ : Err) }, Result.empty) := by
  have h := claim3_any_furthest_error
    [fun s' r' => ({ s' with Error := ⟨3, "x"⟩ }, r'),
     fun s' r' => ({ s' with Error := ⟨3, "y"⟩ }, r')]
    [⟨3, "x"⟩, ⟨3, "y"⟩]
    (⟨"ab".toList, 0, Err.sentinel, 0, false⟩ : State) Result.empty
    (List.Forall₂.cons (fun _ _ => rfl)
      (List.Forall₂.cons (fun _ _ => rfl) List.Forall₂.nil))
    (by decide) (by decide) rfl (by decide) (by decide) rfl
  rw [show ([Parserish.p (fun s' r' => ({ s' with Error := ⟨3, "x"⟩ }, r')),
        Parserish.p (fun s' r' => ({ s' with Error := ⟨3, "y"⟩ }, r'))] :
        List Parserish) =
      List.map Parserish.p
        [fun s' r' => ({ s' with Error := ⟨3, "x"⟩ }, r'),
         fun s' r' => ({ s' with Error := ⟨3, "y"⟩ }, r')] from rfl]
  rw [h]
  rfl

end Goparsify

namespace Goparsify

/-! ### Claim C5 -/

/-- Abstract behavior of one alternative of Longest when run at the
alternation start: either it fails with a fixed error while consuming nothing,
or it succeeds, consuming d characters and writing a result node. -/
inductive AltBehavior where
  | fails (e : Err)
  | succeeds (d : Nat) (r : Result)

/-- Interpretation of a behavior as a parser obeying the primitive contract. -/
def AltBehavior.run : AltBehavior → Parser
  | .fails e => fun s r => ({ s with Error := e }, r)
  | .succeeds d res => fun s _ => ({ s with Pos := s.Pos + d }, res)

/-- Well-formedness of a behavior: failures carry a non-empty description. -/
def AltBehavior.wf : AltBehavior → Prop
  | .fails e => e.expected ≠ ""
  | .succeeds _ _ => True

/-- Following the words of the spec: the single successful alternative that
advanced the cursor furthest past the start offset, the earliest listed on
ties; none when no alternative advances past the start. The advancement and
the node of the kept alternative are returned. -/
def specLongestPick : List AltBehavior → Option (Nat × Result)
  | [] => none
  | .fails _ :: rest => specLongestPick rest
  | .succeeds d r :: rest =>
    match specLongestPick rest with
    | none => if 0 < d then some (d, r) else none
    | some (d2, r2) => if 0 < d ∧ d2 ≤ d then some (d, r) else some (d2, r2)

/-- The node left in place by the loop of Longest: every alternative writes
into the shared node, successes overwriting it, failures leaving it. -/
def threadNode : List AltBehavior → Result → Result
  | [], n => n
  | .fails _ :: rest, n => threadNode rest n
  | .succeeds _ r :: rest, _ => threadNode rest r

theorem specLongestPick_cons_fails (e : Err) (rest : List AltBehavior) :
    specLongestPick (.fails e :: rest) = specLongestPick rest := rfl

theorem specLongestPick_cons_none (d1 : Nat) (r1 : Result)
    (rest : List AltBehavior) (h : specLongestPick rest = none) :
    specLongestPick (.succeeds d1 r1 :: rest) =
      if 0 < d1 then some (d1, r1) else none := by
  simp only [specLongestPick, h]

theorem specLongestPick_cons_some (d1 : Nat) (r1 : Result)
    (rest : List AltBehavior) (d2 : Nat) (r2 : Result)
    (h : specLongestPick rest = some (d2, r2)) :
    specLongestPick (.succeeds d1 r1 :: rest) =
      if 0 < d1 ∧ d2 ≤ d1 then some (d1, r1) else some (d2, r2) := by
  simp only [specLongestPick, h]

theorem specLongestPick_pos : ∀ (bs : List AltBehavior) (d : Nat) (r : Result),
    specLongestPick bs = some (d, r) → 0 < d := by
  intro bs
  induction bs with
  | nil => intro d r h; cases h
  | cons b rest ih =>
    intro d r h
    cases b with
    | fails e => exact ih d r h
    | succeeds d1 r1 =>
      cases hrest : specLongestPick rest with
      | none =>
        rw [specLongestPick_cons_none d1 r1 rest hrest] at h
        by_cases hd : 0 < d1
        · rw [if_pos hd] at h
          cases h
          exact hd
        · rw [if_neg hd] at h
          cases h
      | some pr =>
        obtain ⟨d2, r2⟩ := pr
        rw [specLongestPick_cons_some d1 r1 rest d2 r2 hrest] at h
        by_cases hc : 0 < d1 ∧ d2 ≤ d1
        · rw [if_pos hc] at h
          cases h
          exact hc.1
        · rw [if_neg hc] at h
          exact ih d r (hrest.trans h)

end Goparsify

namespace Goparsify

/-- Merging the spec-side pick into the running best snapshot of Longest. -/
def pickMerge (s : State) (bq : Nat) (best : State × Result) :
    Option (Nat × Result) → State × Result
  | none => best
  | some (d, r) =>
    if s.Pos + d > bq then ({ s with Pos := s.Pos + d }, r) else best

/-- Behavior of the loop of Longest over abstract alternatives: the best
snapshot kept is exactly the spec-side pick merged into the incoming best,
the state keeps returning to the start, and the node is the threaded one. -/
theorem longestLoop_behaviors (s : State) (hs : s.Error = Err.sentinel)
    (hcut : s.Cut ≤ s.Pos) :
    ∀ (bs : List AltBehavior), (∀ b ∈ bs, b.wf) →
    ∀ (n : Result) (best : State × Result) (bq : Nat),
      best.1 = { s with Pos := bq } → s.Pos ≤ bq →
      longestLoop s.Pos (bs.map AltBehavior.run) s n best =
        (pickMerge s bq best (specLongestPick bs), s, threadNode bs n) := by
  intro bs
  induction bs with
  | nil =>
    intro _ n best bq hb1 hbq
    rfl
  | cons b rest ih =>
    intro hwf n best bq hb1 hbq
    have hwfr : ∀ x ∈ rest, x.wf := fun x hx => hwf x (by simp [hx])
    cases b with
    | fails e =>
      have he : e.expected ≠ "" := hwf (.fails e) (by simp)
      simp only [List.map, longestLoop, AltBehavior.run]
      dsimp only [State.Errored, State.Recover]
      rw [if_pos (bne_iff_ne.mpr he)]
      rw [if_neg (show ¬ s.Cut > s.Pos by omega)]
      rw [show ({ s with Error := Err.sentinel } : State) = s from by rw [← hs]]
      rw [ih hwfr n best bq hb1 hbq]
      rfl
    | succeeds d r1 =>
      simp only [List.map, longestLoop, AltBehavior.run]
      dsimp only [State.Errored]
      rw [if_neg (show ¬ (s.Error.expected != "") = true from by
        rw [hs]; decide)]
      rw [hb1]
      dsimp only
      by_cases hgt : s.Pos + d > bq
      · rw [if_pos hgt]
        rw [ih hwfr r1 ({ s with Pos := s.Pos + d }, r1) (s.Pos + d) rfl
          (by omega)]
        have hd : 0 < d := by omega
        cases hrest : specLongestPick rest with
        | none =>
          rw [specLongestPick_cons_none d r1 rest hrest]
          rw [if_pos hd]
          simp only [pickMerge]
          rw [if_pos hgt]
          rfl
        | some pr =>
          obtain ⟨d2, r2⟩ := pr
          rw [specLongestPick_cons_some d r1 rest d2 r2 hrest]
          by_cases hle : d2 ≤ d
          · rw [if_pos ⟨hd, hle⟩]
            simp only [pickMerge]
            rw [if_neg (by omega : ¬ s.Pos + d2 > s.Pos + d)]
            rw [if_pos hgt]
            rfl
          · rw [if_neg (fun hc => hle hc.2)]
            simp only [pickMerge]
            rw [if_pos (by omega : s.Pos + d2 > s.Pos + d)]
            rw [if_pos (by omega : s.Pos + d2 > bq)]
            rfl
      · rw [if_neg hgt]
        rw [ih hwfr r1 best bq hb1 hbq]
        cases hrest : specLongestPick rest with
        | none =>
          rw [specLongestPick_cons_none d r1 rest hrest]
          by_cases hd : 0 < d
          · rw [if_pos hd]
            simp only [pickMerge]
            rw [if_neg hgt]
            rfl
          · rw [if_neg hd]
            rfl
        | some pr =>
          obtain ⟨d2, r2⟩ := pr
          rw [specLongestPick_cons_some d r1 rest d2 r2 hrest]
          by_cases hc : 0 < d ∧ d2 ≤ d
          · rw [if_pos hc]
            simp only [pickMerge]
            rw [if_neg (by omega : ¬ s.Pos + d2 > bq)]
            rw [if_neg hgt]
            rfl
          · rw [if_neg hc]
            rfl

end Goparsify

namespace Goparsify

/-- C5: Longest over alternatives with fixed behaviors (each run at the start
offset, as the loop guarantees by restoring the cursor between attempts)
returns the successful alternative that advanced the cursor furthest past the
start offset, the earliest listed on ties (specLongestPick, a direct rendering
of the spec); when no alternative advances past the start offset it fails with
the group name at the start offset. -/
theorem claim5_longest_keeps_furthest (name : String) (bs : List AltBehavior)
    (s : State) (n : Result) (hwf : ∀ b ∈ bs, b.wf) (hws : s.WS = false)
    (hpos : s.Pos < s.Input.length) (hcut : s.Cut ≤ s.Pos)
    (hs : s.Error = Err.sentinel) :
    (Longest name (bs.map (fun b => Parserish.p b.run))) s n =
      match specLongestPick bs with
      | some (d, r) => ({ s with Pos := s.Pos + d }, r)
      | none => ({ s with Error := ⟨s.Pos, name⟩ }, threadNode bs n) := by
  simp only [Longest, NewParser]
  rw [applyWS_of_noauto s hws]
  rw [if_neg (by omega : ¬ s.Pos ≥ s.Input.length)]
  rw [if_pos hcut]
  have hpar : ParsifyAll (bs.map (fun b => Parserish.p b.run)) =
      bs.map AltBehavior.run := by
    rw [ParsifyAll, List.map_map]
    rfl
  rw [hpar]
  rw [show State.Recover s = s from by rw [State.Recover, ← hs]]
  rw [longestLoop_behaviors s hs hcut bs hwf n (s, n) s.Pos rfl (le_refl _)]
  cases hpick : specLongestPick bs with
  | none =>
    simp only [pickMerge]
    rw [if_neg (by omega : ¬ s.Pos > s.Pos)]
  | some pr =>
    obtain ⟨d, r0⟩ := pr
    have hd : 0 < d := specLongestPick_pos bs d r0 hpick
    simp only [pickMerge]
    rw [if_pos (by omega : s.Pos + d > s.Pos)]
    dsimp only
    rw [if_pos (by omega : s.Pos + d > s.Pos)]

/-- C5 witness: four alternatives, one failing, one advancing by 1 and two
advancing by 3; the earliest of the two furthest successes is kept. -/
theorem claim5_witness :
    (Longest "nm"
        (List.map (fun b => Parserish.p b.run)
          [AltBehavior.fails ⟨2, "x"⟩,
           AltBehavior.succeeds 1 (Result.mk ['A'] []),
           AltBehavior.succeeds 3 (Result.mk ['B'] []),
           AltBehavior.succeeds 3 (Result.mk ['C'] [])]))
        (⟨"abcd".toList, 0, Err.sentinel, 0, false⟩ : State) Result.empty =
      ({ (⟨"abcd".toList, 0, Err.sentinel, 0, false⟩ : State) with
          Pos := 0 + 3 }, Result.mk ['B'] []) := by
  have h := claim5_longest_keeps_furthest "nm"
    [AltBehavior.fails ⟨2, "x"⟩,
     AltBehavior.succeeds 1 (Result.mk ['A'] []),
     AltBehavior.succeeds 3 (Result.mk ['B'] []),
     AltBehavior.succeeds 3 (Result.mk ['C'] [])]
    (⟨"abcd".toList, 0, Err.sentinel, 0, false⟩ : State) Result.empty
    (by
      intro b hb
      simp only [List.mem_cons, List.not_mem_nil, or_false] at hb
      rcases hb with rfl | rfl | rfl | rfl <;>
        first | exact (by decide : ("x" : String) ≠ "") | trivial)
    rfl (by decide) (by decide) rfl
  rw [h]
  rfl

end Goparsify

namespace Goparsify

/-! ### Claim C9 -/

mutual

/-- Following the words of the spec: the depth-first list of descendant leaf
tokens that Merge concatenates; a childless node stands for its own token. -/
def leafTokens : Result → List (List Char)
  | .mk tok [] => [tok]
  | .mk _ (c :: cs) => leafTokensList (c :: cs)

/-- Depth-first leaf tokens of a list of nodes. -/
def leafTokensList : List Result → List (List Char)
  | [] => []
  | c :: cs => leafTokens c ++ leafTokensList cs

end

theorem flatten_child (r : Result) : (flatten r).Child = r.Child := by
  cases r with
  | mk t c =>
    cases c with
    | nil => rfl
    | cons a l => rfl

mutual

theorem flatten_token_eq : ∀ (r : Result),
    (flatten r).Token = (leafTokens r).flatten
  | .mk tok [] => by
    simp [flatten, leafTokens, Result.Token]
  | .mk t (c :: cs) => by
    simp only [flatten, leafTokens, Result.Token]
    exact flattenTokens_eq (c :: cs)

theorem flattenTokens_eq : ∀ (l : List Result),
    flattenTokens l = (leafTokensList l).flatten
  | [] => rfl
  | c :: cs => by
    simp only [flattenTokens, leafTokensList, List.flatten_append]
    rw [flatten_token_eq c, flattenTokens_eq cs]

end

/-- C9: on success of the wrapped parser, Merge returns the state of the
wrapped parser with the node flattened; flattening leaves the child tree
unchanged and recomputes the token as the depth-first concatenation of the
descendant leaf tokens. -/
theorem claim9_merge_flattens (p : Parserish) (s : State) (n : Result)
    (hok : ((Parsify p) s n).1.Errored = false) :
    (Merge p) s n = (((Parsify p) s n).1, flatten (((Parsify p) s n).2)) ∧
    (flatten (((Parsify p) s n).2)).Child = ((Parsify p) s n).2.Child ∧
    (flatten (((Parsify p) s n).2)).Token =
      (leafTokens (((Parsify p) s n).2)).flatten := by
  refine ⟨?_, flatten_child _, flatten_token_eq _⟩
  simp only [Merge, Map]
  rw [if_neg (by simp [hok])]

/-- The self-referential bracer grammar of TestMerge, Seq("(", Maybe(self),
")"), the late-bound self reference modelled by explicit unfolding fuel; the
exhausted case fails expecting an open bracket and is never reached on inputs
shorter than the fuel. -/
def bracer : Nat → Parser
  | 0 => fun ps node => (ps.ErrorHere "(", node)
  | Nat.succ fuel => Seq [.str "(", .p (Maybe (.p (bracer fuel))), .str ")"]

/-- C9 witness: Merge over the bracer grammar on "((()))" yields the token
"((()))". -/
theorem claim9_witness :
    ((Merge (.p (bracer 10))) (NewState "((()))") Result.empty =
      (((Parsify (.p (bracer 10))) (NewState "((()))") Result.empty).1,
        flatten (((Parsify (.p (bracer 10))) (NewState "((()))")
          Result.empty).2)) ∧
    (flatten (((Parsify (.p (bracer 10))) (NewState "((()))")
        Result.empty).2)).Child =
      ((Parsify (.p (bracer 10))) (NewState "((()))") Result.empty).2.Child ∧
    (flatten (((Parsify (.p (bracer 10))) (NewState "((()))")
        Result.empty).2)).Token =
      (leafTokens (((Parsify (.p (bracer 10))) (NewState "((()))")
        Result.empty).2)).flatten) ∧
    ((Merge (.p (bracer 10))) (NewState "((()))") Result.empty).2.Token =
      "((()))".toList :=
  ⟨claim9_merge_flattens (.p (bracer 10)) (NewState "((()))") Result.empty
    (by decide), by decide⟩

end Goparsify
